import Mathlib

/-!
Verification development for the obsidian-crypto-trader signal/decision
engine.  The definitions below are shallow embeddings of the functions in
src/src/App.tsx; JavaScript numbers are modelled by a type of exact
rationals extended with NaN and the two infinities, so that the IEEE
edge cases the code relies on (NaN propagation, division by zero) are
represented faithfully.
-/

namespace Obsidian

/-- JavaScript number semantics restricted to what this program produces: an
exact rational for an ordinary finite double, the two infinities, and NaN.
Double rounding is idealized away: finite values are exact rationals. -/
inductive JVal where
  | nan : JVal
  | inf : JVal
  | ninf : JVal
  | fin (q : ℚ) : JVal
deriving DecidableEq, Repr

/-- JavaScript isFinite. -/
def JVal.isFinite : JVal → Bool
  | .fin _ => true
  | _ => false

/-- IEEE subtraction on extended values. -/
def JVal.sub : JVal → JVal → JVal
  | .nan, _ => .nan
  | _, .nan => .nan
  | .inf, .inf => .nan
  | .inf, _ => .inf
  | .ninf, .ninf => .nan
  | .ninf, _ => .ninf
  | .fin _, .inf => .ninf
  | .fin _, .ninf => .inf
  | .fin a, .fin b => .fin (a - b)

/-- IEEE division on extended values.  Rationals carry no signed zero, so a
zero denominator behaves as +0 does in JavaScript. -/
def JVal.div : JVal → JVal → JVal
  | .nan, _ => .nan
  | _, .nan => .nan
  | .inf, .inf => .nan
  | .inf, .ninf => .nan
  | .ninf, .inf => .nan
  | .ninf, .ninf => .nan
  | .inf, .fin b => if 0 ≤ b then .inf else .ninf
  | .ninf, .fin b => if 0 ≤ b then .ninf else .inf
  | .fin _, .inf => .fin 0
  | .fin _, .ninf => .fin 0
  | .fin a, .fin b =>
      if b = 0 then (if a = 0 then .nan else if 0 < a then .inf else .ninf)
      else .fin (a / b)

/-- Multiplication by the literal 100 (the only constant multiplication the
percentage computations use). -/
def JVal.mul100 : JVal → JVal
  | .nan => .nan
  | .inf => .inf
  | .ninf => .ninf
  | .fin a => .fin (a * 100)

/-- The JavaScript test x <= c against a finite constant (false on NaN). -/
def JVal.leC : JVal → ℚ → Bool
  | .nan, _ => false
  | .inf, _ => false
  | .ninf, _ => true
  | .fin a, c => decide (a ≤ c)

/-- The JavaScript test x >= c against a finite constant (false on NaN). -/
def JVal.geC : JVal → ℚ → Bool
  | .nan, _ => false
  | .inf, _ => true
  | .ninf, _ => false
  | .fin a, c => decide (c ≤ a)

/-- The JavaScript test x < c against a finite constant (false on NaN). -/
def JVal.ltC : JVal → ℚ → Bool
  | .nan, _ => false
  | .inf, _ => false
  | .ninf, _ => true
  | .fin a, c => decide (a < c)

/-- Entry quality labels of the classifier. -/
inductive EntryQuality where
  | VALID : EntryQuality
  | EXTENDED : EntryQuality
  | NO_EDGE : EntryQuality
deriving DecidableEq, Repr

/-- The whyNot strings of computeMicro, one constructor per template string of
the source, carrying the interpolated numeric payload where the template has
one. -/
inductive MicroReason where
  | fastDump (ret1h : JVal)
  | waitForBaseOrReclaim
  | pullback (dropFromHigh6h : JVal)
  | waitForBaseAvoidGuessing
  | extendedFromLow (spikeFromLow6h : JVal)
  | dontChase
deriving DecidableEq, Repr

/-- The MicroMetrics record of the source. -/
structure MicroMetrics where
  ret1h : JVal
  ret4h : JVal
  dropFromHigh6h : JVal
  spikeFromLow6h : JVal
  entryQuality : EntryQuality
  whyNot : List MicroReason
deriving DecidableEq, Repr

/-- JavaScript array indexing with the source idiom prices[i] ?? NaN. -/
def jidx (l : List ℚ) (i : ℕ) : JVal :=
  match l.get? i with
  | some q => .fin q
  | none => .nan

/-- Math.max spread over a list of finite samples: -Infinity when empty. -/
def listMaxJ : List ℚ → JVal
  | [] => .ninf
  | x :: xs => .fin (xs.foldl max x)

/-- Math.min spread over a list of finite samples: +Infinity when empty. -/
def listMinJ : List ℚ → JVal
  | [] => .inf
  | x :: xs => .fin (xs.foldl min x)

/-- The classification block of computeMicro (src/src/App.tsx lines 288-308):
the if / else-if chain assigning entryQuality and pushing the whyNot
strings, first matching rule winning. -/
def classifyMicro (ret1h dropFromHigh6h spikeFromLow6h : JVal) :
    EntryQuality × List MicroReason :=
  if ret1h.leC (-3) then
    (.NO_EDGE, [.fastDump ret1h, .waitForBaseOrReclaim])
  else if dropFromHigh6h.leC (-4) then
    (.EXTENDED, [.pullback dropFromHigh6h, .waitForBaseAvoidGuessing])
  else if spikeFromLow6h.geC 6 then
    (.EXTENDED, [.extendedFromLow spikeFromLow6h, .dontChase])
  else (.VALID, [])

/-- Translation of computeMicro (src/src/App.tsx lines 271-311).  The sample
list holds the finite prices the fetch layer delivers (it filters on
isFinite); the derived percentages are extended values. -/
def computeMicro (prices : List ℚ) : MicroMetrics :=
  let n := prices.length
  let last := jidx prices (n - 1)
  let p1h := jidx prices (n - 2)
  let p4h := jidx prices (n - 5)
  let window6h := prices.drop (n - 7)
  let high6h := listMaxJ window6h
  let low6h := listMinJ window6h
  let ret1h := ((last.sub p1h).div p1h).mul100
  let ret4h := ((last.sub p4h).div p4h).mul100
  let dropFromHigh6h := ((last.sub high6h).div high6h).mul100
  let spikeFromLow6h := ((last.sub low6h).div low6h).mul100
  let c := classifyMicro ret1h dropFromHigh6h spikeFromLow6h
  { ret1h := ret1h, ret4h := ret4h, dropFromHigh6h := dropFromHigh6h,
    spikeFromLow6h := spikeFromLow6h, entryQuality := c.1, whyNot := c.2 }

/-- Trade side, as in the source type side: LONG or SHORT. -/
inductive Side where
  | LONG : Side
  | SHORT : Side
deriving DecidableEq, Repr

/-- Translation of computeR (src/src/App.tsx lines 337-349): reject any
non-finite input with NaN; for LONG the risk is entry - stop, for SHORT it
is stop - entry; a non-positive risk yields NaN, otherwise the signed
profit divided by the risk. -/
def computeR (side : Side) (entry stop exitP : JVal) : JVal :=
  if !(entry.isFinite && stop.isFinite && exitP.isFinite) then .nan
  else
    match entry, stop, exitP with
    | .fin e, .fin s, .fin x =>
        match side with
        | .LONG =>
            let risk := e - s
            if risk ≤ 0 then .nan else .fin ((x - e) / risk)
        | .SHORT =>
            let risk := s - e
            if risk ≤ 0 then .nan else .fin ((e - x) / risk)
    | _, _, _ => .nan

/-- Translation of clamp (src/src/App.tsx line 129):
Math.max(a, Math.min(b, n)). -/
def clamp (n a b : ℚ) : ℚ := max a (min b n)

/-- The changeScore intermediate of scoreSetup. -/
def changeScore (ch : ℚ) : ℚ := clamp (50 + ch * 4) 0 100

/-- The volScore intermediate of scoreSetup.  Math.log10 is not exactly
computable over the rationals, so it enters as a function parameter; the
clamp theorem below holds for every choice of it. -/
def volScore (log10 : ℚ → ℚ) (volFactor : ℚ) : ℚ :=
  clamp (50 + log10 (max 1 volFactor) * 25) 0 100

/-- Result record of scoreSetup. -/
structure ScoreResult where
  combinedScore : ℚ
  score15m : ℚ
  score1h : ℚ
  volFactor : ℚ
  why : List String
deriving Repr

/-- Translation of scoreSetup (src/src/App.tsx lines 314-334).  The nullable
snapshot fields change24h and volume24hUsd arrive as options and default
to 0 as in the source. -/
def scoreSetup (log10 : ℚ → ℚ) (change24h volume24hUsd : Option ℚ)
    (baselineVol : ℚ) : ScoreResult :=
  let ch := change24h.getD 0
  let vol := volume24hUsd.getD 0
  let volFactor := if 0 < baselineVol then vol / baselineVol else 1
  let cs := changeScore ch
  let vs := volScore log10 volFactor
  let score15m := clamp (cs * 0.55 + vs * 0.45 + 4) 0 100
  let score1h := clamp (cs * 0.65 + vs * 0.35) 0 100
  let combined := clamp (score15m * 0.48 + score1h * 0.52) 0 100
  let why :=
    (if 80 ≤ combined then ["High participation + strong tape"] else []) ++
    (if 65 ≤ combined ∧ combined < 80 then ["Tradable activity"] else []) ++
    (if 1.3 ≤ volFactor then ["Volume elevated vs baseline"] else []) ++
    (if 3 ≤ ch then ["Positive 24h trend"] else []) ++
    (if ch < 0 then ["24h negative, be selective"] else [])
  { combinedScore := combined, score15m := score15m, score1h := score1h,
    volFactor := volFactor, why := why }

/-- The CommitConfig record of the source (numeric fields are JavaScript
numbers entered through the commitment form). -/
structure CommitConfig where
  dayKey : String
  committedAtIso : String
  maxTrades : ℚ
  maxDailyLossR : ℚ
  maxConsecutiveLosses : ℚ
  riskPct : ℚ
  allowAsia : Bool
  allowEurope : Bool
  allowUS : Bool
  allowOverlap : Bool
  allowOffPeak : Bool
deriving DecidableEq, Repr

/-- Translation of commitToday (src/src/App.tsx lines 1006-1019): the draft
is normalized field by field at commit time; todayKey and the commit
timestamp come from the clock. -/
def commitToday (todayKey committedAtIso : String)
    (commitDraft : CommitConfig) : CommitConfig :=
  { commitDraft with
    dayKey := todayKey
    committedAtIso := committedAtIso
    riskPct := clamp commitDraft.riskPct 0.1 5
    maxTrades := ((max 1 ⌊commitDraft.maxTrades⌋ : ℤ) : ℚ)
    maxDailyLossR := max 0.5 commitDraft.maxDailyLossR
    maxConsecutiveLosses := ((max 1 ⌊commitDraft.maxConsecutiveLosses⌋ : ℤ) : ℚ) }

/-- The reasons a day can lock, one constructor per lockedReason template
string of the source, carrying the interpolated values. -/
inductive LockReason where
  | maxTradesReached (maxTrades : ℚ)
  | dailyLossLimit (rToday maxDailyLossR : ℚ)
  | consecutiveLossesHit (n : ℕ)
  | manualEndSession
deriving DecidableEq, Repr

/-- The TradeRecord of the source; ids and timestamps are opaque strings
supplied by the environment (uuid and clock). -/
structure TradeRecord where
  id : String
  tsIso : String
  symbol : String
  side : Side
  entry : JVal
  stop : JVal
  exitP : JVal
  r : JVal
  rulesFollowed : Bool
  note : Option String
deriving DecidableEq, Repr

/-- The DayState record of the source. -/
structure DayState where
  dayKey : String
  locked : Bool
  lockedReason : Option LockReason
  trades : List TradeRecord
deriving DecidableEq, Repr

/-- The fresh day state literal the source writes in loadDayState and
clearToday. -/
def freshDayState (dayKey : String) : DayState :=
  { dayKey := dayKey, locked := false, lockedReason := none, trades := [] }

/-- A persisted slot as the load functions see it: the stored record may be
absent (getItem returns null), unusable (JSON.parse throws, or yields a
value without the expected shape), or parsed to a value. -/
inductive StoredRecord (α : Type) where
  | absent : StoredRecord α
  | unusable : StoredRecord α
  | parsed (value : α) : StoredRecord α
deriving DecidableEq, Repr

/-- Translation of loadCommit (src/src/App.tsx lines 355-364). -/
def loadCommit (stored : StoredRecord CommitConfig) (dayKey : String) :
    Option CommitConfig :=
  match stored with
  | .absent => none
  | .unusable => none
  | .parsed c => if c.dayKey = dayKey then some c else none

/-- Translation of loadDayState (src/src/App.tsx lines 385-395). -/
def loadDayState (stored : StoredRecord DayState) (dayKey : String) : DayState :=
  match stored with
  | .absent => freshDayState dayKey
  | .unusable => freshDayState dayKey
  | .parsed st => if st.dayKey = dayKey then st else freshDayState dayKey

/-- Session quality tiers of the source. -/
inductive SessionStatus where
  | TRADE : SessionStatus
  | SELECTIVE : SessionStatus
  | WAIT : SessionStatus
deriving DecidableEq, Repr

/-- Structure labels of the source. -/
inductive StructureLabel where
  | OK : StructureLabel
  | WAIT : StructureLabel
  | NO_EDGE : StructureLabel
deriving DecidableEq, Repr

/-- Translation of commitRequired (src/src/App.tsx line 782): no commitment,
or one whose dayKey is not today. -/
def commitRequired (commit : Option CommitConfig) (todayKey : String) : Bool :=
  match commit with
  | none => true
  | some c => c.dayKey != todayKey

/-- Translation of tradingAllowed (src/src/App.tsx lines 811-822). -/
def tradingAllowed (commitRequired locked : Bool) (status : SessionStatus)
    (sessionAllowedByCommit overrideGuard : Bool) : Bool :=
  if commitRequired then false
  else if locked then false
  else
    let waitBlocks := (status == .WAIT) && !overrideGuard
    let commitBlocks := !sessionAllowedByCommit && !overrideGuard
    if waitBlocks then false
    else if commitBlocks then false
    else true

/-- Translation of coinActionAllowed (src/src/App.tsx lines 944-953). -/
def coinActionAllowed (tradingAllowed overrideGuard : Bool)
    (entryQuality : EntryQuality) (structureLabel : StructureLabel) : Bool :=
  if !tradingAllowed then false
  else if overrideGuard then true
  else if entryQuality == .NO_EDGE then false
  else if structureLabel != .OK then false
  else true

/-- Translation of addTrade (src/src/App.tsx lines 976-996): compute the R
multiple, reject a non-finite result leaving the state unchanged (the
alert path), otherwise append the immutable trade record. -/
def addTrade (st : DayState) (logSide : Side) (logEntry logStop logExit : JVal)
    (logRulesFollowed : Bool) (logNote : Option String)
    (id tsIso focusSymbol : String) : DayState :=
  let r := computeR logSide logEntry logStop logExit
  if !r.isFinite then st
  else
    { st with trades := st.trades ++
        [{ id := id, tsIso := tsIso, symbol := focusSymbol, side := logSide,
           entry := logEntry, stop := logStop, exitP := logExit, r := r,
           rulesFollowed := logRulesFollowed, note := logNote }] }

/-- Translation of rToday (src/src/App.tsx lines 786-789): sum of the finite
R multiples of the day. -/
def rToday (trades : List TradeRecord) : ℚ :=
  trades.foldl (fun acc t => acc + match t.r with | .fin q => q | _ => 0) 0

/-- Translation of consecutiveLosses (src/src/App.tsx lines 790-797): the
count of trailing trades with r < 0. -/
def consecutiveLosses (trades : List TradeRecord) : ℕ :=
  (trades.reverse.takeWhile (fun t => t.r.ltC 0)).length

/-- Translation of the auto-lock effect (src/src/App.tsx lines 825-852): it
fires the first lock condition that holds and never unlocks. -/
def autoLock (commitRequired : Bool) (commit : Option CommitConfig)
    (st : DayState) : DayState :=
  if commitRequired then st
  else if st.locked then st
  else
    match commit with
    | none => st
    | some c =>
        if c.maxTrades ≤ (st.trades.length : ℚ) then
          { st with
            locked := true
            lockedReason := some (.maxTradesReached c.maxTrades) }
        else if rToday st.trades ≤ -|c.maxDailyLossR| then
          { st with
            locked := true
            lockedReason := some (.dailyLossLimit (rToday st.trades) c.maxDailyLossR) }
        else if c.maxConsecutiveLosses ≤ (consecutiveLosses st.trades : ℚ) then
          { st with
            locked := true
            lockedReason := some (.consecutiveLossesHit (consecutiveLosses st.trades)) }
        else st

/-- The operator commands that mutate the day state, together with the gate
the program places in front of each: the trade-logging flow is reachable
only through buttons rendered with disabled when tradingAllowed is false
(src/src/App.tsx lines 1553 and 1996), end-session locks, reset-day asks
for confirmation (line 1022), and the auto-lock effect re-evaluates the
lock conditions. -/
inductive DayCommand where
  | logTrade (logSide : Side) (logEntry logStop logExit : JVal)
      (logRulesFollowed : Bool) (logNote : Option String)
      (id tsIso focusSymbol : String) : DayCommand
  | endSession : DayCommand
  | resetDay (confirmed : Bool) : DayCommand
  | autoLockEval (commit : Option CommitConfig) : DayCommand

/-- One operator command applied to the day state.  tradingAllowedNow is the
live value of tradingAllowed gating the trade-log entry point, and
commitRequiredNow feeds the auto-lock effect. -/
def dayStep (tradingAllowedNow commitRequiredNow : Bool) (todayKey : String)
    (st : DayState) : DayCommand → DayState
  | .logTrade logSide logEntry logStop logExit logRulesFollowed logNote id tsIso sym =>
      if tradingAllowedNow then
        addTrade st logSide logEntry logStop logExit logRulesFollowed logNote id tsIso sym
      else st
  | .endSession =>
      { st with
        locked := true
        lockedReason := some .manualEndSession }
  | .resetDay confirmed => if confirmed then freshDayState todayKey else st
  | .autoLockEval commit => autoLock commitRequiredNow commit st

/-- Translation of defaultCommit (src/src/App.tsx lines 369-383); the commit
timestamp is a clock input. -/
def defaultCommit (dayKey committedAtIso : String) : CommitConfig :=
  { dayKey := dayKey
    committedAtIso := committedAtIso
    maxTrades := 2
    maxDailyLossR := 2
    maxConsecutiveLosses := 2
    riskPct := 2
    allowAsia := false
    allowEurope := true
    allowUS := true
    allowOverlap := true
    allowOffPeak := false }

/-- A 1h candle as consumed by the structure engine. -/
structure Candle1h where
  h : ℚ
  l : ℚ
deriving DecidableEq, Repr

/-- A zoned pivot level: rounded price and touch count (strength). -/
structure Zone where
  price : ℚ
  strength : ℕ
deriving DecidableEq, Repr

/-- The pivot level sets returned by computePivotLevels1h. -/
structure Levels where
  supports : List Zone
  resistances : List Zone
deriving DecidableEq, Repr

/-- The reasons strings of evaluateStructure and of the refresh fallbacks,
one constructor per template string, carrying interpolated values. -/
inductive StructReason where
  | noSupportBelow
  | invalidStructure
  | noResistanceAbove
  | roomTo2RFails (roomTo2R : ℚ)
  | weakLevels
  | noPriceForStructure
  | structureUnavailable
deriving DecidableEq, Repr

/-- The source tag of a StructureResult. -/
inductive StructSource where
  | BINANCE_1H : StructSource
  | MISSING : StructSource
deriving DecidableEq, Repr

/-- The StructureResult record of the source. -/
structure StructureResult where
  ok : Bool
  label : StructureLabel
  reasons : List StructReason
  support : Option ℚ
  resistance : Option ℚ
  roomTo2R : Option ℚ
  source : StructSource
deriving DecidableEq, Repr

/-- The zone rounding of computePivotLevels1h (src/src/App.tsx lines
432-437); Math.round rounds half toward positive infinity, as Mathlib
round does. -/
def zoneRound (x : ℚ) : ℚ :=
  if 1000 ≤ x then ((round (x / 10) : ℤ) : ℚ) * 10
  else if 100 ≤ x then ((round (x / 1) : ℤ) : ℚ) * 1
  else if 1 ≤ x then ((round (x / 0.01) : ℤ) : ℚ) * 0.01
  else ((round (x / 0.000001) : ℤ) : ℚ) * 0.000001

/-- One step of the zone-counting Map: a hit on an existing zone increments
its count in place, a new zone is appended (insertion order preserved, as
for a JavaScript Map). -/
def addZone : List Zone → ℚ → List Zone
  | [], z => [{ price := z, strength := 1 }]
  | a :: rest, z =>
      if a.price = z then { price := a.price, strength := a.strength + 1 } :: rest
      else a :: addZone rest z

/-- The countZones helper of computePivotLevels1h (lines 439-443). -/
def countZones (arr : List ℚ) : List Zone :=
  arr.foldl (fun acc p => addZone acc (zoneRound p)) []

/-- Translation of computePivotLevels1h (src/src/App.tsx lines 419-449):
interior candles (two-candle buffer at each end) are pivots when they
strictly exceed or undercut both immediate neighbours; pivots are then
zone-rounded and counted. -/
def computePivotLevels1h (candles : List Candle1h) : Levels :=
  let n := candles.length
  let resistances := (List.range n).filterMap (fun i =>
    if 2 ≤ i ∧ i < n - 2 then
      match candles.get? (i - 1), candles.get? i, candles.get? (i + 1) with
      | some cPrev, some cCur, some cNext =>
          if cPrev.h < cCur.h ∧ cNext.h < cCur.h then some cCur.h else none
      | _, _, _ => none
    else none)
  let supports := (List.range n).filterMap (fun i =>
    if 2 ≤ i ∧ i < n - 2 then
      match candles.get? (i - 1), candles.get? i, candles.get? (i + 1) with
      | some cPrev, some cCur, some cNext =>
          if cCur.l < cPrev.l ∧ cCur.l < cNext.l then some cCur.l else none
      | _, _, _ => none
    else none)
  { supports := countZones supports, resistances := countZones resistances }

/-- The ascending comparator (a, b) => a.price - b.price of the source. -/
def zoneLeAsc (a b : Zone) : Prop := a.price ≤ b.price

/-- The descending comparator (a, b) => b.price - a.price of the source. -/
def zoneLeDesc (a b : Zone) : Prop := b.price ≤ a.price

instance : DecidableRel zoneLeAsc :=
  fun a b => inferInstanceAs (Decidable (a.price ≤ b.price))

instance : DecidableRel zoneLeDesc :=
  fun a b => inferInstanceAs (Decidable (b.price ≤ a.price))

instance : IsTotal Zone zoneLeAsc := ⟨fun a b => le_total a.price b.price⟩

instance : IsTrans Zone zoneLeAsc := ⟨fun _ _ _ hab hbc => le_trans hab hbc⟩

instance : IsTotal Zone zoneLeDesc := ⟨fun a b => le_total b.price a.price⟩

instance : IsTrans Zone zoneLeDesc := ⟨fun _ _ _ hab hbc => le_trans hbc hab⟩

/-- Translation of evaluateStructure (src/src/App.tsx lines 451-497). -/
def evaluateStructure (lastPrice : ℚ) (levels : Levels) : StructureResult :=
  let supportsBelow := List.insertionSort zoneLeDesc
    (levels.supports.filter (fun x => decide (x.price < lastPrice)))
  let resistAbove := List.insertionSort zoneLeAsc
    (levels.resistances.filter (fun x => decide (lastPrice < x.price)))
  match supportsBelow with
  | [] =>
      { ok := false, label := .WAIT, reasons := [.noSupportBelow],
        support := none, resistance := none, roomTo2R := none,
        source := .BINANCE_1H }
  | s0 :: _ =>
      let support := s0.price
      let risk := lastPrice - support
      if ¬ (0 < risk) then
        { ok := false, label := .NO_EDGE, reasons := [.invalidStructure],
          support := some support, resistance := none, roomTo2R := none,
          source := .BINANCE_1H }
      else
        let maxTargetDistance := lastPrice * 0.15
        let candidates := resistAbove.filter
          (fun r => decide (r.price - lastPrice ≤ maxTargetDistance))
        let chosen? :=
          match candidates.find?
            (fun r => decide (2 ≤ (r.price - lastPrice) / risk)) with
          | some c => some c
          | none => candidates.head?
        match chosen? with
        | none =>
            { ok := false, label := .WAIT, reasons := [.noResistanceAbove],
              support := some support, resistance := none, roomTo2R := none,
              source := .BINANCE_1H }
        | some chosen =>
            let resistance := chosen.price
            let roomTo2R := (resistance - lastPrice) / risk
            if roomTo2R < 2 then
              { ok := false, label := .NO_EDGE,
                reasons := [.roomTo2RFails roomTo2R],
                support := some support, resistance := some resistance,
                roomTo2R := some roomTo2R, source := .BINANCE_1H }
            else
              let reasons :=
                if s0.strength < 2 ∨ chosen.strength < 2 then [.weakLevels]
                else []
              { ok := true, label := .OK, reasons := reasons,
                support := some support, resistance := some resistance,
                roomTo2R := some roomTo2R, source := .BINANCE_1H }

/-- A per-symbol result map (a JavaScript object keyed by symbol). -/
def SymMap (α : Type) : Type := String → Option α

/-- The object-spread merge of the refresh pipeline (lines 721-723 and
760-762): keys of next overwrite keys of prev. -/
def mergeInto {α : Type} (prev next : SymMap α) : SymMap α :=
  fun k =>
    match next k with
    | some v => some v
    | none => prev k

/-- The construction of the next object: an empty object filled pair by
pair, a later assignment to the same key overwriting an earlier one. -/
def mapOfPairs {α : Type} (pairs : List (String × α)) : SymMap α :=
  fun k => (pairs.reverse.find? (fun p => p.1 == k)).map Prod.snd

/-- One refresh of the micro map (src/src/App.tsx lines 713-726): each
ranked candidate (symbol paired with its CoinGecko id) is fetched, fed to
computeMicro, and the resulting object is spread over the previous map.
The upstream hourly data enters as the function fetchHourly. -/
def refreshMicroStep (ranked : List (String × String))
    (fetchHourly : String → List ℚ) (prev : SymMap MicroMetrics) :
    SymMap MicroMetrics :=
  mergeInto prev
    (mapOfPairs (ranked.map (fun x => (x.1, computeMicro (fetchHourly x.2)))))

/-- The fallback result when no usable price exists (lines 733-738). -/
def missingPriceStructure : StructureResult :=
  { ok := false, label := .WAIT, reasons := [.noPriceForStructure],
    support := none, resistance := none, roomTo2R := none,
    source := .MISSING }

/-- The fallback result when the candle fetch fails (lines 746-756). -/
def unavailableStructure : StructureResult :=
  { ok := false, label := .WAIT, reasons := [.structureUnavailable],
    support := none, resistance := none, roomTo2R := none,
    source := .MISSING }

/-- One refresh of the structure map (src/src/App.tsx lines 728-765): for
each ranked candidate, a missing or zero price yields the missing-price
fallback, a failed candle fetch the unavailable fallback, and otherwise
evaluateStructure runs on the pivot levels of the fetched candles; the
resulting object is spread over the previous map. -/
def refreshStructStep (ranked : List (String × String))
    (priceOf : String → Option ℚ)
    (fetchCandles : String → Option (List Candle1h))
    (prev : SymMap StructureResult) : SymMap StructureResult :=
  mergeInto prev
    (mapOfPairs (ranked.map (fun x =>
      (x.1,
        match priceOf x.1 with
        | none => missingPriceStructure
        | some price =>
            if price = 0 then missingPriceStructure
            else
              match fetchCandles x.1 with
              | none => unavailableStructure
              | some candles =>
                  evaluateStructure price (computePivotLevels1h candles)))))

/-- The property C5 asserts of evaluateStructure, following the wording of
spec section 4.3 steps 4, 6 and 7, stated over the zone sets and the
current price: the chosen support is the nearest one below the price; the
chosen target is the nearest resistance at most 15 percent above the price
whose ratio reaches 2, or the nearest such resistance regardless of ratio
as fallback; a room below 2 yields NO_EDGE carrying the ratio in the
reason; a room of at least 2 yields OK, weak touch counts adding at most a
non-blocking warning. -/
def StructureClaim (lastPrice : ℚ) (levels : Levels) : Prop :=
  ∃ sZ cZ : Zone,
    sZ ∈ levels.supports ∧ sZ.price < lastPrice ∧
    (∀ y ∈ levels.supports, y.price < lastPrice → y.price ≤ sZ.price) ∧
    cZ ∈ levels.resistances ∧ lastPrice < cZ.price ∧
    cZ.price - lastPrice ≤ lastPrice * 0.15 ∧
    ((∃ y ∈ levels.resistances, lastPrice < y.price ∧
        y.price - lastPrice ≤ lastPrice * 0.15 ∧
        2 ≤ (y.price - lastPrice) / (lastPrice - sZ.price)) →
      2 ≤ (cZ.price - lastPrice) / (lastPrice - sZ.price) ∧
      (∀ y ∈ levels.resistances, lastPrice < y.price →
        y.price - lastPrice ≤ lastPrice * 0.15 →
        2 ≤ (y.price - lastPrice) / (lastPrice - sZ.price) →
        cZ.price ≤ y.price)) ∧
    ((¬ ∃ y ∈ levels.resistances, lastPrice < y.price ∧
        y.price - lastPrice ≤ lastPrice * 0.15 ∧
        2 ≤ (y.price - lastPrice) / (lastPrice - sZ.price)) →
      ∀ y ∈ levels.resistances, lastPrice < y.price →
        y.price - lastPrice ≤ lastPrice * 0.15 → cZ.price ≤ y.price) ∧
    (evaluateStructure lastPrice levels).support = some sZ.price ∧
    (evaluateStructure lastPrice levels).resistance = some cZ.price ∧
    (evaluateStructure lastPrice levels).roomTo2R =
      some ((cZ.price - lastPrice) / (lastPrice - sZ.price)) ∧
    ((cZ.price - lastPrice) / (lastPrice - sZ.price) < 2 →
      (evaluateStructure lastPrice levels).label = .NO_EDGE ∧
      (evaluateStructure lastPrice levels).ok = false ∧
      (evaluateStructure lastPrice levels).reasons =
        [.roomTo2RFails ((cZ.price - lastPrice) / (lastPrice - sZ.price))]) ∧
    (2 ≤ (cZ.price - lastPrice) / (lastPrice - sZ.price) →
      (evaluateStructure lastPrice levels).label = .OK ∧
      (evaluateStructure lastPrice levels).ok = true ∧
      (evaluateStructure lastPrice levels).reasons =
        (if sZ.strength < 2 ∨ cZ.strength < 2 then [StructReason.weakLevels]
         else []))

lemma computeMicro_entryQuality_eq (prices : List ℚ) :
    (computeMicro prices).entryQuality =
      (classifyMicro (computeMicro prices).ret1h
        (computeMicro prices).dropFromHigh6h
        (computeMicro prices).spikeFromLow6h).1 := rfl

lemma computeMicro_whyNot_eq (prices : List ℚ) :
    (computeMicro prices).whyNot =
      (classifyMicro (computeMicro prices).ret1h
        (computeMicro prices).dropFromHigh6h
        (computeMicro prices).spikeFromLow6h).2 := rfl

lemma classifyMicro_of_dump (r d s : JVal) (h : r.leC (-3) = true) :
    classifyMicro r d s = (.NO_EDGE, [.fastDump r, .waitForBaseOrReclaim]) := by
  simp [classifyMicro, h]

lemma classifyMicro_of_pullback (r d s : JVal) (h1 : r.leC (-3) = false)
    (h2 : d.leC (-4) = true) :
    classifyMicro r d s = (.EXTENDED, [.pullback d, .waitForBaseAvoidGuessing]) := by
  simp [classifyMicro, h1, h2]

lemma classifyMicro_of_spike (r d s : JVal) (h1 : r.leC (-3) = false)
    (h2 : d.leC (-4) = false) (h3 : s.geC 6 = true) :
    classifyMicro r d s = (.EXTENDED, [.extendedFromLow s, .dontChase]) := by
  simp [classifyMicro, h1, h2, h3]

lemma classifyMicro_of_none (r d s : JVal) (h1 : r.leC (-3) = false)
    (h2 : d.leC (-4) = false) (h3 : s.geC 6 = false) :
    classifyMicro r d s = (.VALID, []) := by
  simp [classifyMicro, h1, h2, h3]

/-- C4: the entry-quality classifier evaluates its rules in strict priority
order with first match winning: ret1h <= -3 gives NO_EDGE regardless of the
other metrics; otherwise dropFromHigh6h <= -4 gives EXTENDED; otherwise
spikeFromLow6h >= 6 gives EXTENDED; otherwise VALID. -/
theorem computeMicro_priority (prices : List ℚ) :
    ((computeMicro prices).ret1h.leC (-3) = true →
        (computeMicro prices).entryQuality = .NO_EDGE) ∧
    ((computeMicro prices).ret1h.leC (-3) = false →
        (computeMicro prices).dropFromHigh6h.leC (-4) = true →
        (computeMicro prices).entryQuality = .EXTENDED) ∧
    ((computeMicro prices).ret1h.leC (-3) = false →
        (computeMicro prices).dropFromHigh6h.leC (-4) = false →
        (computeMicro prices).spikeFromLow6h.geC 6 = true →
        (computeMicro prices).entryQuality = .EXTENDED) ∧
    ((computeMicro prices).ret1h.leC (-3) = false →
        (computeMicro prices).dropFromHigh6h.leC (-4) = false →
        (computeMicro prices).spikeFromLow6h.geC 6 = false →
        (computeMicro prices).entryQuality = .VALID) := by
  refine ⟨?_, ?_, ?_, ?_⟩
  · intro h1
    rw [computeMicro_entryQuality_eq, classifyMicro_of_dump _ _ _ h1]
  · intro h1 h2
    rw [computeMicro_entryQuality_eq, classifyMicro_of_pullback _ _ _ h1 h2]
  · intro h1 h2 h3
    rw [computeMicro_entryQuality_eq, classifyMicro_of_spike _ _ _ h1 h2 h3]
  · intro h1 h2 h3
    rw [computeMicro_entryQuality_eq, classifyMicro_of_none _ _ _ h1 h2 h3]

/-- Witness for C4: the series 90, 110, 100, 96.5 ends in a 3.5 percent
single-step drop, and the pullback and spike conditions hold as well, yet
the label is NO_EDGE by rule priority. -/
theorem computeMicro_priority_witness :
    (computeMicro [90, 110, 100, 193/2]).ret1h.leC (-3) = true ∧
    (computeMicro [90, 110, 100, 193/2]).dropFromHigh6h.leC (-4) = true ∧
    (computeMicro [90, 110, 100, 193/2]).spikeFromLow6h.geC 6 = true ∧
    (computeMicro [90, 110, 100, 193/2]).entryQuality = .NO_EDGE :=
  ⟨by norm_num [computeMicro, jidx, listMaxJ, listMinJ, JVal.sub, JVal.div,
      JVal.mul100, JVal.leC],
   by norm_num [computeMicro, jidx, listMaxJ, listMinJ, JVal.sub, JVal.div,
      JVal.mul100, JVal.leC],
   by norm_num [computeMicro, jidx, listMaxJ, listMinJ, JVal.sub, JVal.div,
      JVal.mul100, JVal.geC],
   (computeMicro_priority [90, 110, 100, 193/2]).1
     (by norm_num [computeMicro, jidx, listMaxJ, listMinJ, JVal.sub, JVal.div,
        JVal.mul100, JVal.leC])⟩

/-- C7: when all derived percentages are NaN (for example on an empty series),
no classification rule matches and the result is VALID with an empty
reasons list. -/
theorem computeMicro_nan_falls_through (prices : List ℚ)
    (h1 : (computeMicro prices).ret1h = .nan)
    (h2 : (computeMicro prices).dropFromHigh6h = .nan)
    (h3 : (computeMicro prices).spikeFromLow6h = .nan) :
    (computeMicro prices).entryQuality = .VALID ∧
      (computeMicro prices).whyNot = [] := by
  rw [computeMicro_entryQuality_eq, computeMicro_whyNot_eq, h1, h2, h3]
  constructor <;> simp [classifyMicro, JVal.leC, JVal.geC]

/-- Witness for C7: the empty series produces NaN for every percentage and is
classified VALID with no reasons. -/
theorem computeMicro_nan_falls_through_witness :
    (computeMicro []).ret1h = .nan ∧
    (computeMicro []).dropFromHigh6h = .nan ∧
    (computeMicro []).spikeFromLow6h = .nan ∧
    ((computeMicro []).entryQuality = .VALID ∧ (computeMicro []).whyNot = []) :=
  ⟨by norm_num [computeMicro, jidx, listMaxJ, listMinJ, JVal.sub, JVal.div,
      JVal.mul100],
   by norm_num [computeMicro, jidx, listMaxJ, listMinJ, JVal.sub, JVal.div,
      JVal.mul100],
   by norm_num [computeMicro, jidx, listMaxJ, listMinJ, JVal.sub, JVal.div,
      JVal.mul100],
   computeMicro_nan_falls_through []
     (by norm_num [computeMicro, jidx, listMaxJ, listMinJ, JVal.sub, JVal.div,
        JVal.mul100])
     (by norm_num [computeMicro, jidx, listMaxJ, listMinJ, JVal.sub, JVal.div,
        JVal.mul100])
     (by norm_num [computeMicro, jidx, listMaxJ, listMinJ, JVal.sub, JVal.div,
        JVal.mul100])⟩

/-- C3: for finite inputs, computeR for LONG equals (exit - entry)/(entry - stop)
whenever entry - stop > 0 and for SHORT equals (entry - exit)/(stop - entry)
whenever stop - entry > 0; a non-positive risk or any non-finite input yields
NaN; and the four concrete values of the specification hold. -/
theorem computeR_spec :
    (∀ e s x : ℚ, 0 < e - s →
        computeR .LONG (.fin e) (.fin s) (.fin x) = .fin ((x - e) / (e - s))) ∧
    (∀ e s x : ℚ, 0 < s - e →
        computeR .SHORT (.fin e) (.fin s) (.fin x) = .fin ((e - x) / (s - e))) ∧
    (∀ e s x : ℚ, e - s ≤ 0 → computeR .LONG (.fin e) (.fin s) (.fin x) = .nan) ∧
    (∀ e s x : ℚ, s - e ≤ 0 → computeR .SHORT (.fin e) (.fin s) (.fin x) = .nan) ∧
    (∀ (side : Side) (entry stop exitP : JVal),
        (entry.isFinite && stop.isFinite && exitP.isFinite) = false →
        computeR side entry stop exitP = .nan) ∧
    computeR .LONG (.fin 100) (.fin 95) (.fin 110) = .fin 2 ∧
    computeR .LONG (.fin 100) (.fin 95) (.fin 90) = .fin (-2) ∧
    computeR .SHORT (.fin 100) (.fin 105) (.fin 90) = .fin 2 ∧
    computeR .LONG (.fin 100) (.fin 100) (.fin 110) = .nan := by
  refine ⟨?_, ?_, ?_, ?_, ?_, by norm_num [computeR, JVal.isFinite],
    by norm_num [computeR, JVal.isFinite], by norm_num [computeR, JVal.isFinite],
    by norm_num [computeR, JVal.isFinite]⟩
  · intro e s x h
    simp only [computeR, JVal.isFinite, Bool.and_self, Bool.not_true,
      Bool.false_eq_true, if_false]
    simp [not_le.mpr h]
  · intro e s x h
    simp only [computeR, JVal.isFinite, Bool.and_self, Bool.not_true,
      Bool.false_eq_true, if_false]
    simp [not_le.mpr h]
  · intro e s x h
    simp only [computeR, JVal.isFinite, Bool.and_self, Bool.not_true,
      Bool.false_eq_true, if_false]
    simp [h]
  · intro e s x h
    simp only [computeR, JVal.isFinite, Bool.and_self, Bool.not_true,
      Bool.false_eq_true, if_false]
    simp [h]
  · intro side entry stop exitP h
    simp [computeR, h]

/-- Witness for C3, applying the theorem at entry 100, stop 95, exit 110. -/
theorem computeR_spec_witness :
    (0:ℚ) < 100 - 95 ∧
      computeR .LONG (.fin 100) (.fin 95) (.fin 110) =
        .fin ((110 - 100) / (100 - 95)) :=
  ⟨by norm_num, computeR_spec.1 100 95 110 (by norm_num)⟩

lemma clamp_mem (n a b : ℚ) (hab : a ≤ b) :
    a ≤ clamp n a b ∧ clamp n a b ≤ b :=
  ⟨le_max_left a (min b n), max_le hab (min_le_left b n)⟩

/-- C6: for every input (any finite 24h change and volume, any baseline, and
any behaviour of Math.log10) the scores changeScore, volScore, score15m,
score1h and combinedScore all lie in the closed interval from 0 to 100. -/
theorem scoreSetup_scores_clamped (log10 : ℚ → ℚ)
    (change24h volume24hUsd : Option ℚ) (baselineVol : ℚ) :
    (0 ≤ changeScore (change24h.getD 0) ∧
      changeScore (change24h.getD 0) ≤ 100) ∧
    (0 ≤ volScore log10
        (scoreSetup log10 change24h volume24hUsd baselineVol).volFactor ∧
      volScore log10
        (scoreSetup log10 change24h volume24hUsd baselineVol).volFactor ≤ 100) ∧
    (0 ≤ (scoreSetup log10 change24h volume24hUsd baselineVol).score15m ∧
      (scoreSetup log10 change24h volume24hUsd baselineVol).score15m ≤ 100) ∧
    (0 ≤ (scoreSetup log10 change24h volume24hUsd baselineVol).score1h ∧
      (scoreSetup log10 change24h volume24hUsd baselineVol).score1h ≤ 100) ∧
    (0 ≤ (scoreSetup log10 change24h volume24hUsd baselineVol).combinedScore ∧
      (scoreSetup log10 change24h volume24hUsd baselineVol).combinedScore ≤ 100) :=
  ⟨clamp_mem _ _ _ (by norm_num), clamp_mem _ _ _ (by norm_num),
    clamp_mem _ _ _ (by norm_num), clamp_mem _ _ _ (by norm_num),
    clamp_mem _ _ _ (by norm_num)⟩

/-- C10: every contract produced by commitToday is normalized no matter what
draft was entered: dayKey is today, riskPct lies in the interval from 0.1
to 5, maxTrades is an integer of at least 1, maxDailyLossR is at least
0.5, and maxConsecutiveLosses is an integer of at least 1. -/
theorem commitToday_normalized (todayKey committedAtIso : String)
    (commitDraft : CommitConfig) :
    (commitToday todayKey committedAtIso commitDraft).dayKey = todayKey ∧
    (0.1 : ℚ) ≤ (commitToday todayKey committedAtIso commitDraft).riskPct ∧
    (commitToday todayKey committedAtIso commitDraft).riskPct ≤ 5 ∧
    1 ≤ (commitToday todayKey committedAtIso commitDraft).maxTrades ∧
    (∃ k : ℤ, (commitToday todayKey committedAtIso commitDraft).maxTrades = (k : ℚ)) ∧
    (0.5 : ℚ) ≤ (commitToday todayKey committedAtIso commitDraft).maxDailyLossR ∧
    1 ≤ (commitToday todayKey committedAtIso commitDraft).maxConsecutiveLosses ∧
    (∃ k : ℤ,
      (commitToday todayKey committedAtIso commitDraft).maxConsecutiveLosses = (k : ℚ)) := by
  refine ⟨rfl, (clamp_mem _ _ _ (by norm_num)).1, (clamp_mem _ _ _ (by norm_num)).2,
    ?_, ⟨max 1 ⌊commitDraft.maxTrades⌋, rfl⟩, le_max_left _ _, ?_,
    ⟨max 1 ⌊commitDraft.maxConsecutiveLosses⌋, rfl⟩⟩
  · show (1 : ℚ) ≤ ((max 1 ⌊commitDraft.maxTrades⌋ : ℤ) : ℚ)
    exact_mod_cast le_max_left 1 ⌊commitDraft.maxTrades⌋
  · show (1 : ℚ) ≤ ((max 1 ⌊commitDraft.maxConsecutiveLosses⌋ : ℤ) : ℚ)
    exact_mod_cast le_max_left 1 ⌊commitDraft.maxConsecutiveLosses⌋

lemma autoLock_of_locked (cr : Bool) (commit : Option CommitConfig)
    (st : DayState) (h : st.locked = true) : autoLock cr commit st = st := by
  by_cases hcr : cr = true
  · simp [autoLock, hcr]
  · simp only [Bool.not_eq_true] at hcr
    simp [autoLock, hcr, h]

/-- C8: loadCommit returns the stored contract only when its dayKey equals
the requested day (otherwise none, forcing UNCOMMITTED), and loadDayState
returns a fresh unlocked, trade-free state whenever the stored record is
absent, unusable, or carries a different dayKey. -/
theorem load_discards_stale_records (dayKey : String) :
    (∀ (stored : StoredRecord CommitConfig) (c : CommitConfig),
        loadCommit stored dayKey = some c →
        c.dayKey = dayKey ∧ stored = .parsed c) ∧
    (∀ c : CommitConfig, c.dayKey ≠ dayKey →
        loadCommit (.parsed c) dayKey = none) ∧
    loadCommit .absent dayKey = none ∧
    loadCommit .unusable dayKey = none ∧
    (∀ st : DayState, st.dayKey ≠ dayKey →
        loadDayState (.parsed st) dayKey = freshDayState dayKey) ∧
    loadDayState .absent dayKey = freshDayState dayKey ∧
    loadDayState .unusable dayKey = freshDayState dayKey ∧
    (freshDayState dayKey).locked = false ∧
    (freshDayState dayKey).trades = [] := by
  refine ⟨?_, ?_, rfl, rfl, ?_, rfl, rfl, rfl, rfl⟩
  · intro stored c h
    cases stored with
    | absent => simp [loadCommit] at h
    | unusable => simp [loadCommit] at h
    | parsed c0 =>
        by_cases hd : c0.dayKey = dayKey
        · simp only [loadCommit, if_pos hd, Option.some.injEq] at h
          subst h
          exact ⟨hd, rfl⟩
        · simp [loadCommit, hd] at h
  · intro c h
    simp [loadCommit, h]
  · intro st h
    simp [loadDayState, h]

/-- Witness for C8: a contract and a day state stored under 2026-10-10 are
discarded when loaded on 2026-10-11. -/
theorem load_discards_stale_records_witness :
    (defaultCommit "2026-10-10" "t").dayKey ≠ "2026-10-11" ∧
    loadCommit (.parsed (defaultCommit "2026-10-10" "t")) "2026-10-11" = none ∧
    ((freshDayState "2026-10-10").dayKey ≠ "2026-10-11" ∧
      loadDayState (.parsed (freshDayState "2026-10-10")) "2026-10-11" =
        freshDayState "2026-10-11") :=
  ⟨by decide,
   (load_discards_stale_records "2026-10-11").2.1 _ (by decide),
   by decide,
   (load_discards_stale_records "2026-10-11").2.2.2.2.1 _ (by decide)⟩

/-- C2: when today is uncommitted or the day is locked, both the global and
the per-asset predicates are false even with the manual override on; with
a commitment for today and no lock, the override bypasses the
session-quality block, the commitment allowed-sessions block, and the
per-asset quality/structure blocks. -/
theorem override_never_bypasses_uncommitted_or_locked
    (commit : Option CommitConfig) (todayKey : String) (locked : Bool)
    (status : SessionStatus) (sessionAllowedByCommit overrideGuard : Bool)
    (entryQuality : EntryQuality) (structureLabel : StructureLabel) :
    ((commitRequired commit todayKey = true ∨ locked = true) →
      tradingAllowed (commitRequired commit todayKey) locked status
          sessionAllowedByCommit overrideGuard = false ∧
      coinActionAllowed
          (tradingAllowed (commitRequired commit todayKey) locked status
            sessionAllowedByCommit overrideGuard)
          overrideGuard entryQuality structureLabel = false) ∧
    (commitRequired commit todayKey = false → locked = false →
      overrideGuard = true →
      tradingAllowed (commitRequired commit todayKey) locked status
          sessionAllowedByCommit overrideGuard = true ∧
      coinActionAllowed
          (tradingAllowed (commitRequired commit todayKey) locked status
            sessionAllowedByCommit overrideGuard)
          overrideGuard entryQuality structureLabel = true) := by
  constructor
  · intro h
    have hta : tradingAllowed (commitRequired commit todayKey) locked status
        sessionAllowedByCommit overrideGuard = false := by
      rcases h with h | h
      · simp [tradingAllowed, h]
      · subst h
        by_cases hcr : commitRequired commit todayKey = true
        · simp [tradingAllowed, hcr]
        · simp only [Bool.not_eq_true] at hcr
          simp [tradingAllowed, hcr]
    exact ⟨hta, by rw [hta]; simp [coinActionAllowed]⟩
  · intro h1 h2 h3
    subst h2
    have hta : tradingAllowed (commitRequired commit todayKey) false status
        sessionAllowedByCommit overrideGuard = true := by
      simp [tradingAllowed, h1, h3]
    exact ⟨hta, by rw [hta]; simp [coinActionAllowed, h3]⟩

/-- Witness for C2: with no commitment and a locked day, the override toggle
does not enable trading nor per-asset action. -/
theorem override_never_bypasses_witness :
    (commitRequired none "2026-10-11" = true ∨ true = true) ∧
    (tradingAllowed (commitRequired none "2026-10-11") true .TRADE true true = false ∧
      coinActionAllowed
        (tradingAllowed (commitRequired none "2026-10-11") true .TRADE true true)
        true .VALID .OK = false) :=
  ⟨Or.inl rfl,
   (override_never_bypasses_uncommitted_or_locked none "2026-10-11" true .TRADE
      true true .VALID .OK).1 (Or.inl rfl)⟩

/-- C1: with the day locked, the gated trade-append path leaves the day
state unchanged, no command other than a confirmed reset-day ever produces
an unlocked state, and reset-day yields the fresh state with no trades and
no lock. -/
theorem locked_day_is_sticky (cr : Bool) (status : SessionStatus)
    (sac og : Bool) (todayKey : String) (st : DayState)
    (hlock : st.locked = true) :
    (∀ (logSide : Side) (logEntry logStop logExit : JVal)
        (logRulesFollowed : Bool) (logNote : Option String)
        (id tsIso sym : String),
        dayStep (tradingAllowed cr st.locked status sac og) cr todayKey st
          (.logTrade logSide logEntry logStop logExit logRulesFollowed
            logNote id tsIso sym) = st) ∧
    (∀ cmd : DayCommand,
        (dayStep (tradingAllowed cr st.locked status sac og) cr todayKey st
          cmd).locked = false →
        cmd = .resetDay true) ∧
    dayStep (tradingAllowed cr st.locked status sac og) cr todayKey st
        (.resetDay true) = freshDayState todayKey ∧
    (freshDayState todayKey).locked = false ∧
    (freshDayState todayKey).trades = [] := by
  have hta : tradingAllowed cr st.locked status sac og = false := by
    rw [hlock]
    by_cases hcr : cr = true
    · simp [tradingAllowed, hcr]
    · simp only [Bool.not_eq_true] at hcr
      simp [tradingAllowed, hcr]
  refine ⟨?_, ?_, by simp [dayStep], rfl, rfl⟩
  · intro logSide logEntry logStop logExit logRulesFollowed logNote id tsIso sym
    simp [dayStep, hta]
  · intro cmd h
    cases cmd with
    | logTrade a b c d e f g i j =>
        have hta2 : tradingAllowed cr true status sac og = false := hlock ▸ hta
        simp [dayStep, hta2, hta, hlock] at h
    | endSession => simp [dayStep] at h
    | resetDay confirmed =>
        cases confirmed with
        | true => rfl
        | false => simp [dayStep, hlock] at h
    | autoLockEval commit =>
        rw [dayStep, autoLock_of_locked cr commit st hlock] at h
        rw [hlock] at h
        exact absurd h (by simp)

/-- Witness for C1: a locked day ignores a concrete log-trade command and is
cleared only by the confirmed reset. -/
theorem locked_day_is_sticky_witness :
    ({ freshDayState "2026-10-11" with locked := true } : DayState).locked = true ∧
    dayStep (tradingAllowed false true .TRADE true true) false "2026-10-11"
        { freshDayState "2026-10-11" with locked := true }
        (.logTrade .LONG (.fin 100) (.fin 95) (.fin 110) true none "a" "b" "SOL") =
      { freshDayState "2026-10-11" with locked := true } ∧
    dayStep (tradingAllowed false true .TRADE true true) false "2026-10-11"
        { freshDayState "2026-10-11" with locked := true } (.resetDay true) =
      freshDayState "2026-10-11" :=
  ⟨rfl,
   (locked_day_is_sticky false .TRADE true true "2026-10-11"
      { freshDayState "2026-10-11" with locked := true } rfl).1
     .LONG (.fin 100) (.fin 95) (.fin 110) true none "a" "b" "SOL",
   (locked_day_is_sticky false .TRADE true true "2026-10-11"
      { freshDayState "2026-10-11" with locked := true } rfl).2.2.1⟩

lemma mergeInto_idem {α : Type} (prev next : SymMap α) (k : String) :
    mergeInto (mergeInto prev next) next k = mergeInto prev next k := by
  unfold mergeInto
  cases next k <;> simp

/-- C9: running the refresh pipeline twice in succession with identical
upstream data yields the same per-symbol micro map and structure map as
running it once; each refresh overwrites exactly its own keys. -/
theorem refresh_idempotent (ranked : List (String × String))
    (fetchHourly : String → List ℚ) (priceOf : String → Option ℚ)
    (fetchCandles : String → Option (List Candle1h))
    (microPrev : SymMap MicroMetrics) (structPrev : SymMap StructureResult)
    (sym : String) :
    refreshMicroStep ranked fetchHourly
        (refreshMicroStep ranked fetchHourly microPrev) sym =
      refreshMicroStep ranked fetchHourly microPrev sym ∧
    refreshStructStep ranked priceOf fetchCandles
        (refreshStructStep ranked priceOf fetchCandles structPrev) sym =
      refreshStructStep ranked priceOf fetchCandles structPrev sym :=
  ⟨mergeInto_idem _ _ _, mergeInto_idem _ _ _⟩

lemma mem_supportsBelow (lastPrice : ℚ) (levels : Levels) (y : Zone) :
    y ∈ List.insertionSort zoneLeDesc
        (levels.supports.filter (fun x => decide (x.price < lastPrice))) ↔
      y ∈ levels.supports ∧ y.price < lastPrice := by
  rw [List.mem_insertionSort, List.mem_filter]
  simp

lemma mem_candidates (lastPrice : ℚ) (levels : Levels) (y : Zone) :
    y ∈ (List.insertionSort zoneLeAsc
        (levels.resistances.filter (fun x => decide (lastPrice < x.price)))).filter
          (fun r => decide (r.price - lastPrice ≤ lastPrice * 0.15)) ↔
      y ∈ levels.resistances ∧ lastPrice < y.price ∧
        y.price - lastPrice ≤ lastPrice * 0.15 := by
  rw [List.mem_filter, List.mem_insertionSort, List.mem_filter]
  simp [and_assoc]

lemma candidates_sorted (lastPrice : ℚ) (levels : Levels) :
    List.Sorted zoneLeAsc ((List.insertionSort zoneLeAsc
        (levels.resistances.filter (fun x => decide (lastPrice < x.price)))).filter
          (fun r => decide (r.price - lastPrice ≤ lastPrice * 0.15))) :=
  List.Pairwise.filter _ (List.sorted_insertionSort zoneLeAsc _)

lemma find?_sorted_minimal (p : Zone → Bool) :
    ∀ l : List Zone, List.Sorted zoneLeAsc l → ∀ z : Zone,
      l.find? p = some z →
      p z = true ∧ z ∈ l ∧ ∀ y ∈ l, p y = true → z.price ≤ y.price := by
  intro l
  induction l with
  | nil => intro _ z hz; simp at hz
  | cons a t ih =>
      intro hsort z hz
      by_cases ha : p a = true
      · rw [List.find?_cons_of_pos _ ha] at hz
        injection hz with hz
        subst hz
        refine ⟨ha, List.mem_cons_self a t, ?_⟩
        intro y hy _
        rcases List.mem_cons.mp hy with rfl | hyt
        · exact le_refl _
        · exact List.rel_of_sorted_cons hsort y hyt
      · rw [List.find?_cons_of_neg _ ha] at hz
        obtain ⟨pz, zt, hmin⟩ := ih hsort.of_cons z hz
        refine ⟨pz, List.mem_cons_of_mem a zt, ?_⟩
        intro y hy hpy
        rcases List.mem_cons.mp hy with rfl | hyt
        · exact absurd hpy ha
        · exact hmin y hyt hpy

lemma head?_sorted_minimal (l : List Zone) (hsort : List.Sorted zoneLeAsc l)
    (z : Zone) (hz : l.head? = some z) :
    z ∈ l ∧ ∀ y ∈ l, z.price ≤ y.price := by
  cases l with
  | nil => simp at hz
  | cons a t =>
      simp only [List.head?_cons, Option.some.injEq] at hz
      subst hz
      refine ⟨List.mem_cons_self _ _, ?_⟩
      intro y hy
      rcases List.mem_cons.mp hy with rfl | hyt
      · exact le_refl _
      · exact List.rel_of_sorted_cons hsort y hyt

lemma head?_sorted_maximal (l : List Zone) (hsort : List.Sorted zoneLeDesc l)
    (z : Zone) (hz : l.head? = some z) :
    z ∈ l ∧ ∀ y ∈ l, y.price ≤ z.price := by
  cases l with
  | nil => simp at hz
  | cons a t =>
      simp only [List.head?_cons, Option.some.injEq] at hz
      subst hz
      refine ⟨List.mem_cons_self _ _, ?_⟩
      intro y hy
      rcases List.mem_cons.mp hy with rfl | hyt
      · exact le_refl _
      · exact List.rel_of_sorted_cons hsort y hyt

/-- C5: for every zone set and current price with at least one support
strictly below, the chosen support is the nearest below the price; the
chosen target is the nearest resistance at most 15 percent above the price
whose room reaches 2R, falling back to the nearest such resistance; a room
below 2 yields NO_EDGE with the computed ratio in the reason; a room of at
least 2 yields OK, a touch count below 2 adding only a non-blocking
warning. -/
theorem evaluateStructure_spec (lastPrice : ℚ) (levels : Levels)
    (hsup : ∃ s ∈ levels.supports, s.price < lastPrice)
    (hres : ∃ r ∈ levels.resistances, lastPrice < r.price ∧
        r.price - lastPrice ≤ lastPrice * 0.15) :
    StructureClaim lastPrice levels := by
  obtain ⟨s, hsmem, hslt⟩ := hsup
  obtain ⟨r, hrmem, hrlt, hrdist⟩ := hres
  rcases hS : List.insertionSort zoneLeDesc
      (levels.supports.filter (fun x => decide (x.price < lastPrice)))
    with _ | ⟨s0, stail⟩
  · exfalso
    have hmem : s ∈ List.insertionSort zoneLeDesc
        (levels.supports.filter (fun x => decide (x.price < lastPrice))) :=
      (mem_supportsBelow lastPrice levels s).mpr ⟨hsmem, hslt⟩
    rw [hS] at hmem
    simp at hmem
  · have hs0mem : s0 ∈ levels.supports ∧ s0.price < lastPrice := by
      refine (mem_supportsBelow lastPrice levels s0).mp ?_
      rw [hS]
      exact List.mem_cons_self _ _
    have hs0max0 := head?_sorted_maximal _
      (List.sorted_insertionSort zoneLeDesc _) s0 (by rw [hS]; rfl)
    have hs0max : ∀ y ∈ levels.supports, y.price < lastPrice →
        y.price ≤ s0.price := by
      intro y hy hylt
      exact hs0max0.2 y ((mem_supportsBelow lastPrice levels y).mpr ⟨hy, hylt⟩)
    have hrisk : 0 < lastPrice - s0.price := sub_pos.mpr hs0mem.2
    have hrcand : r ∈ (List.insertionSort zoneLeAsc
        (levels.resistances.filter (fun x => decide (lastPrice < x.price)))).filter
          (fun r => decide (r.price - lastPrice ≤ lastPrice * 0.15)) :=
      (mem_candidates lastPrice levels r).mpr ⟨hrmem, hrlt, hrdist⟩
    rcases hfind : ((List.insertionSort zoneLeAsc
        (levels.resistances.filter (fun x => decide (lastPrice < x.price)))).filter
          (fun r => decide (r.price - lastPrice ≤ lastPrice * 0.15))).find?
            (fun r => decide (2 ≤ (r.price - lastPrice) / (lastPrice - s0.price)))
      with _ | c
    · -- find? returned none: the fallback head is chosen and its room is
      -- below 2, so the label is NO_EDGE
      have hnoq := List.find?_eq_none.mp hfind
      rcases hC : ((List.insertionSort zoneLeAsc
          (levels.resistances.filter (fun x => decide (lastPrice < x.price)))).filter
            (fun r => decide (r.price - lastPrice ≤ lastPrice * 0.15)))
        with _ | ⟨c0, ct⟩
      · exfalso
        rw [hC] at hrcand
        simp at hrcand
      · have h0 := head?_sorted_minimal _ (candidates_sorted lastPrice levels)
          c0 (by rw [hC]; rfl)
        have hc0mem := (mem_candidates lastPrice levels c0).mp h0.1
        have hc0nq : ¬ 2 ≤ (c0.price - lastPrice) / (lastPrice - s0.price) := by
          have := hnoq c0 h0.1
          simpa using this
        have hroom : (c0.price - lastPrice) / (lastPrice - s0.price) < 2 :=
          not_le.mp hc0nq
        have hEval : evaluateStructure lastPrice levels =
            { ok := false, label := .NO_EDGE,
              reasons := [.roomTo2RFails
                ((c0.price - lastPrice) / (lastPrice - s0.price))],
              support := some s0.price, resistance := some c0.price,
              roomTo2R := some ((c0.price - lastPrice) / (lastPrice - s0.price)),
              source := .BINANCE_1H } := by
          simp only [evaluateStructure]
          rw [hS]
          simp only []
          rw [if_neg (not_not_intro hrisk), hfind]
          simp only []
          rw [hC]
          simp only [List.head?_cons]
          rw [if_pos hroom]
        refine ⟨s0, c0, hs0mem.1, hs0mem.2, hs0max, hc0mem.1, hc0mem.2.1,
          hc0mem.2.2, ?_, ?_, ?_, ?_, ?_, ?_, ?_⟩
        · intro hq
          exfalso
          obtain ⟨y, hy1, hy2, hy3, hy4⟩ := hq
          exact hnoq y ((mem_candidates lastPrice levels y).mpr ⟨hy1, hy2, hy3⟩)
            (by simpa using hy4)
        · intro _ y hy h1 h2
          exact h0.2 y ((mem_candidates lastPrice levels y).mpr ⟨hy, h1, h2⟩)
        · rw [hEval]
        · rw [hEval]
        · rw [hEval]
        · intro _
          rw [hEval]
          exact ⟨rfl, rfl, rfl⟩
        · intro h
          exact absurd h hc0nq
    · -- find? returned some c: the nearest qualifying resistance is chosen
      obtain ⟨hpc, hcmem0, hcmin⟩ := find?_sorted_minimal _ _
        (candidates_sorted lastPrice levels) c hfind
      have hcq : 2 ≤ (c.price - lastPrice) / (lastPrice - s0.price) :=
        of_decide_eq_true hpc
      have hcmem := (mem_candidates lastPrice levels c).mp hcmem0
      have hEval : evaluateStructure lastPrice levels =
          { ok := true, label := .OK,
            reasons := if s0.strength < 2 ∨ c.strength < 2
              then [.weakLevels] else [],
            support := some s0.price, resistance := some c.price,
            roomTo2R := some ((c.price - lastPrice) / (lastPrice - s0.price)),
            source := .BINANCE_1H } := by
        simp only [evaluateStructure]
        rw [hS]
        simp only []
        rw [if_neg (not_not_intro hrisk), hfind]
        simp only []
        rw [if_neg (not_lt.mpr hcq)]
      refine ⟨s0, c, hs0mem.1, hs0mem.2, hs0max, hcmem.1, hcmem.2.1,
        hcmem.2.2, ?_, ?_, ?_, ?_, ?_, ?_, ?_⟩
      · intro _
        refine ⟨hcq, ?_⟩
        intro y hy h1 h2 h3
        exact hcmin y ((mem_candidates lastPrice levels y).mpr ⟨hy, h1, h2⟩)
          (decide_eq_true h3)
      · intro hnone
        exact absurd ⟨c, hcmem.1, hcmem.2.1, hcmem.2.2, hcq⟩ hnone
      · rw [hEval]
      · rw [hEval]
      · rw [hEval]
      · intro h
        exact absurd h (not_lt.mpr hcq)
      · intro _
        rw [hEval]
        exact ⟨rfl, rfl, rfl⟩

/-- Witness for C5: the specification example with a support zone at 100
(two touches) and a resistance zone at 106 (two touches), price 100.5:
risk 0.5, room 11, label OK. -/
theorem evaluateStructure_spec_witness :
    (∃ s ∈ (⟨[⟨100, 2⟩], [⟨106, 2⟩]⟩ : Levels).supports,
      s.price < (201/2 : ℚ)) ∧
    (∃ r ∈ (⟨[⟨100, 2⟩], [⟨106, 2⟩]⟩ : Levels).resistances,
      (201/2 : ℚ) < r.price ∧ r.price - 201/2 ≤ (201/2 : ℚ) * 0.15) ∧
    StructureClaim (201/2) ⟨[⟨100, 2⟩], [⟨106, 2⟩]⟩ :=
  ⟨⟨⟨100, 2⟩, by simp, by norm_num⟩,
   ⟨⟨106, 2⟩, by simp, by norm_num, by norm_num⟩,
   evaluateStructure_spec (201/2) ⟨[⟨100, 2⟩], [⟨106, 2⟩]⟩
     ⟨⟨100, 2⟩, by simp, by norm_num⟩
     ⟨⟨106, 2⟩, by simp, by norm_num, by norm_num⟩⟩

end Obsidian
